import Mathlib

/-!
Verification development for the delegation-token and audit-bundle core
(`src/crypto/tokens.py`, `src/core/audit.py`).

The Python source is shallowly embedded:

* JSON values are the inductive `Json`; a Python dict is an association
  list with first-match lookup (Python dict keys are unique, so lookup
  order is irrelevant on values actually produced by the code).
* A wire-token segment (`header_b64`, `payload_b64`, `signature_b64`) is
  abstracted by `Seg`: the code only ever observes a segment through the
  result of base64url-decoding and JSON-parsing it, so a segment is
  represented either by the JSON value it decodes to (`Seg.jsonSeg`) or
  as an undecodable raw string (`Seg.rawSeg`).
* Python exceptions become `Except` / `Option`: a `none` result of an
  `Option`-valued function models an uncaught Python exception.
* The cryptographic capability (`SigningService` / `VerificationService`,
  imported from the `crypto.signing` module, which is not among the
  sources) is modelled from the spec as an arbitrary function parameter.
* Machine integers are `Int` (Python integers are unbounded).
* `decimal.Decimal` values are `Dec`: an exact scaled integer
  `m / 10 ^ e`, compared through its rational value.
-/

/-- JSON values, as produced by the Python `json` module on the payloads
this code handles.  Numbers are restricted to integers, which is the only
numeric shape the token code produces or reads. -/
inductive Json where
  | str : String → Json
  | num : Int → Json
  | null : Json
  | arr : List Json → Json
  | obj : List (String × Json) → Json

/-- First-match association-list lookup, the embedding of Python dict
indexing on the JSON objects the code manipulates. -/
def jsonLookup (k : String) : List (String × Json) → Option Json
  | [] => none
  | (k₂, v) :: t => if k₂ = k then some v else jsonLookup k t

/-- Python truthiness of a JSON value, used by `if not key_id:`. -/
def jsonTruthy : Json → Bool
  | Json.str s => s ≠ ""
  | Json.num n => n ≠ 0
  | Json.null => false
  | Json.arr l => !l.isEmpty
  | Json.obj l => !l.isEmpty

/-- One dot-separated segment of a wire token, abstracted by its
base64url+JSON decoding behaviour. -/
inductive Seg where
  | jsonSeg : Json → Seg
  | rawSeg : String → Seg

/-- Result of base64url-decoding and JSON-parsing a segment. -/
def Seg.decode : Seg → Option Json
  | Seg.jsonSeg j => some j
  | Seg.rawSeg _ => none

/-- A wire token is its list of dot-separated segments (`token.split('.')`). -/
def Token := List Seg

/-- Modelled from the spec: the `SignatureAlgorithm` enumeration of the
missing `crypto.signing` module.  `ES256` is the only algorithm named
anywhere in the repository; the `value` of a member is its wire
identifier (the string placed in the `alg` header field). -/
inductive SignatureAlgorithm where
  | ES256 : SignatureAlgorithm
deriving DecidableEq, Repr

/-- Wire identifier of an algorithm, the Python enum member `.value`. -/
def SignatureAlgorithm.value : SignatureAlgorithm → String
  | SignatureAlgorithm.ES256 => "ES256"

/-- Embedding of `SignatureAlgorithm(x)`: the enum constructor applied to
a JSON header value, raising (here: `none`) on anything that is not a
known algorithm identifier string. -/
def parseAlgorithm : Json → Option SignatureAlgorithm
  | Json.str "ES256" => some SignatureAlgorithm.ES256
  | _ => none

/-- An audit log entry (`AuditEntry` model).  The timestamp is an epoch
instant, `details` is the free-form key/value map. -/
structure AuditEntry where
  entry_id : String
  timestamp : Int
  event_type : String
  agent_id : String
  details : List (String × Json)

/-- The bytes handed to the signing capability, identified by the data
they are canonically computed from: either a token signing input
(`header_b64.payload_b64`, determined by the two segments) or the
canonical JSON of an audit bundle's signable subset. -/
inductive SignData where
  | tokenInput : Seg → Seg → SignData
  | bundleContent : String → Int → List AuditEntry → Option String → SignData

/-- Modelled from the spec: result of `SigningService.sign`
(`{signature, algorithm, keyId}`). -/
structure SignerResult where
  signature : String
  algorithm : SignatureAlgorithm
  key_id : String

/-- Modelled from the spec: the signing capability
`sign(data, keyId, algorithm)`, which either returns a `SignerResult` or
fails with a signing error. -/
def SigningService := SignData → String → SignatureAlgorithm → Except String SignerResult

/-- Modelled from the spec: result of `VerificationService.verify`
(`{isValid, errorMessage?}`). -/
structure VerificationResult where
  is_valid : Bool
  error_message : String

/-- Modelled from the spec: the verification capability
`verify(data, signature, keyId, algorithm)`.  Its `data` argument is the
signing input (determined by the header and payload segments), the
signature is the third segment, and the key id is the JSON value taken
from the header's `kid` field. -/
def VerificationService :=
  Seg → Seg → Seg → Json → SignatureAlgorithm → VerificationResult

/-- The `spendingLimit` claim, `{"value": <decimal string>, "currency": <code>}`. -/
structure SpendingLimit where
  value : String
  currency : String
deriving DecidableEq, Repr

/-- The `TokenClaims` dataclass, with fields typed per its annotations. -/
structure TokenClaims where
  iss : String
  sub : String
  aud : String
  exp : Int
  iat : Int
  jti : String
  spending_limit : SpendingLimit
  allowed_operations : List String
  max_delegation_depth : Int
  budget_category : String
  nbf : Option Int := none
  parent_token_id : Option String := none
deriving DecidableEq, Repr

/-- Embedding of `TokenClaims.to_dict`: the JWT payload dictionary, in
the insertion order of the source, with `nbf` and `parentTokenId`
appended only when present. -/
def TokenClaims.to_dict (c : TokenClaims) : List (String × Json) :=
  [("iss", Json.str c.iss),
   ("sub", Json.str c.sub),
   ("aud", Json.str c.aud),
   ("exp", Json.num c.exp),
   ("iat", Json.num c.iat),
   ("jti", Json.str c.jti),
   ("spendingLimit", Json.obj [("value", Json.str c.spending_limit.value),
                               ("currency", Json.str c.spending_limit.currency)]),
   ("allowedOperations", Json.arr (c.allowed_operations.map Json.str)),
   ("maxDelegationDepth", Json.num c.max_delegation_depth),
   ("budgetCategory", Json.str c.budget_category)]
  ++ (match c.nbf with
      | some n => [("nbf", Json.num n)]
      | none => [])
  ++ (match c.parent_token_id with
      | some p => [("parentTokenId", Json.str p)]
      | none => [])

/-- Required string field of a claims dictionary. -/
def getStr (k : String) (d : List (String × Json)) : Option String :=
  match jsonLookup k d with
  | some (Json.str s) => some s
  | _ => none

/-- Required integer field of a claims dictionary. -/
def getInt (k : String) (d : List (String × Json)) : Option Int :=
  match jsonLookup k d with
  | some (Json.num n) => some n
  | _ => none

/-- Optional integer field (`data.get(k)`): absent or null means `none`. -/
def getIntOpt (k : String) (d : List (String × Json)) : Option Int :=
  match jsonLookup k d with
  | some (Json.num n) => some n
  | _ => none

/-- Optional string field (`data.get(k)`): absent or null means `none`. -/
def getStrOpt (k : String) (d : List (String × Json)) : Option String :=
  match jsonLookup k d with
  | some (Json.str s) => some s
  | _ => none

/-- Decoding of a JSON array as a list of operation names. -/
def decodeStrList : List Json → Option (List String)
  | [] => some []
  | Json.str s :: t => (decodeStrList t).map (fun l => s :: l)
  | _ => none

/-- The `spendingLimit` field of a claims dictionary. -/
def getLimit (d : List (String × Json)) : Option SpendingLimit :=
  match jsonLookup "spendingLimit" d with
  | some (Json.obj o) =>
    match jsonLookup "value" o, jsonLookup "currency" o with
    | some (Json.str v), some (Json.str c) => some ⟨v, c⟩
    | _, _ => none
  | _ => none

/-- The `allowedOperations` field of a claims dictionary. -/
def getOps (d : List (String × Json)) : Option (List String) :=
  match jsonLookup "allowedOperations" d with
  | some (Json.arr l) => decodeStrList l
  | _ => none

/-- Embedding of `TokenClaims.from_dict`, typed per the dataclass field
annotations: a dictionary missing a required key, or carrying a field of
a shape other than the annotated one, is treated as a claims-decoding
failure. -/
def TokenClaims.from_dict (d : List (String × Json)) : Option TokenClaims := do
  let iss ← getStr "iss" d
  let sub ← getStr "sub" d
  let aud ← getStr "aud" d
  let exp ← getInt "exp" d
  let iat ← getInt "iat" d
  let jti ← getStr "jti" d
  let sl ← getLimit d
  let ops ← getOps d
  let depth ← getInt "maxDelegationDepth" d
  let bc ← getStr "budgetCategory" d
  pure { iss := iss, sub := sub, aud := aud, exp := exp, iat := iat, jti := jti,
         spending_limit := sl, allowed_operations := ops,
         max_delegation_depth := depth, budget_category := bc,
         nbf := getIntOpt "nbf" d, parent_token_id := getStrOpt "parentTokenId" d }

/-- Exact decimal value `m / 10 ^ e`, the embedding of a
`decimal.Decimal`; comparisons go through the exact rational value. -/
structure Dec where
  m : Int
  e : Nat
deriving DecidableEq, Repr

/-- Exact rational value of a decimal. -/
def Dec.toRat (d : Dec) : ℚ := (d.m : ℚ) / ((10 : ℚ) ^ d.e)

/-- Executable exact comparison of two decimals (cross multiplication by
the positive denominators). -/
def Dec.ble (a b : Dec) : Bool :=
  decide (a.m * (10 : Int) ^ b.e ≤ b.m * (10 : Int) ^ a.e)

/-- Numeric value of a digit string. -/
def natOfDigits (cs : List Char) : Nat :=
  cs.foldl (fun a c => a * 10 + (c.toNat - 48)) 0

/-- Removal of leading and trailing whitespace from a character list. -/
def trimChars (cs : List Char) : List Char :=
  ((cs.dropWhile Char.isWhitespace).reverse.dropWhile Char.isWhitespace).reverse

/-- Embedding of `Decimal(s)` on a string argument: optional sign,
digits with an optional fractional part, and an optional exponent, with
surrounding whitespace ignored; anything else raises (here: `none`).
Special values such as `NaN`, which no comparison in this code tolerates,
are also mapped to `none`. -/
def Dec.parse (s : String) : Option Dec :=
  let cs := trimChars s.toList
  let sgn : Int := match cs with
    | '-' :: _ => -1
    | _ => 1
  let cs := match cs with
    | '+' :: r => r
    | '-' :: r => r
    | r => r
  let mantChars := cs.takeWhile (fun c => c ≠ 'e' ∧ c ≠ 'E')
  let expChars := cs.dropWhile (fun c => c ≠ 'e' ∧ c ≠ 'E')
  let intPart := mantChars.takeWhile Char.isDigit
  let rest := mantChars.dropWhile Char.isDigit
  let fracOpt : Option (List Char) := match rest with
    | [] => some []
    | '.' :: f => if f.all Char.isDigit then some f else none
    | _ => none
  match fracOpt with
  | none => none
  | some frac =>
    if intPart.isEmpty && frac.isEmpty then none
    else
      let m : Int := sgn * (natOfDigits (intPart ++ frac) : Int)
      let sc : Nat := frac.length
      match expChars with
      | [] => some ⟨m, sc⟩
      | _ :: ec =>
        let esgn : Int := match ec with
          | '-' :: _ => -1
          | _ => 1
        let ed := match ec with
          | '+' :: r => r
          | '-' :: r => r
          | r => r
        if ed.isEmpty || !ed.all Char.isDigit then none
        else
          let ev : Int := esgn * (natOfDigits ed : Int)
          let shift : Int := (sc : Int) - ev
          if 0 ≤ shift then some ⟨m, shift.toNat⟩
          else some ⟨m * (10 : Int) ^ (-shift).toNat, 0⟩

/-- Errors raised during token issuance (`TokenSigningError`). -/
structure TokenSigningError where
  message : String
deriving DecidableEq, Repr

/-- Errors raised during token verification: the exception classes
`TokenVerificationError` and `TokenExpiredError` of the source, each
carrying its message.  Inner messages of wrapped generic exceptions are
abbreviated; the distinguishing prefixes of the f-strings in the source
are kept verbatim. -/
inductive TokenErr where
  | verification : String → TokenErr
  | expired : String → TokenErr
deriving DecidableEq, Repr

/-- The exception class of a verification error, disregarding the
message. -/
inductive ErrKind where
  | verificationError : ErrKind
  | expiredError : ErrKind
deriving DecidableEq, Repr

/-- Exception class of a `TokenErr`. -/
def TokenErr.kind : TokenErr → ErrKind
  | TokenErr.verification _ => ErrKind.verificationError
  | TokenErr.expired _ => ErrKind.expiredError

/-- The JWT header built by `TokenSigner.create_token`. -/
def tokenHeader (algorithm : SignatureAlgorithm) (key_id : String) : Json :=
  Json.obj [("alg", Json.str algorithm.value),
            ("typ", Json.str "JWT"),
            ("kid", Json.str key_id)]

/-- Embedding of `TokenSigner.create_token`: build the header, encode
header and payload as the first two segments, obtain a signature over
the signing input from the capability, and append it as the third
segment; a capability failure is wrapped in a `TokenSigningError`. -/
def create_token (svc : SigningService) (claims : TokenClaims) (key_id : String)
    (algorithm : SignatureAlgorithm) : Except TokenSigningError Token :=
  let headerSeg := Seg.jsonSeg (tokenHeader algorithm key_id)
  let payloadSeg := Seg.jsonSeg (Json.obj claims.to_dict)
  match svc (SignData.tokenInput headerSeg payloadSeg) key_id algorithm with
  | Except.ok r => Except.ok [headerSeg, payloadSeg, Seg.rawSeg r.signature]
  | Except.error e => Except.error ⟨"Failed to create token: " ++ e⟩

/-- Embedding of `claims.nbf and claims.nbf > now` (Python truthiness:
an `nbf` of `0` is falsy and disables the not-yet-valid check). -/
def nbfRejects (nbf : Option Int) (now : Int) : Bool :=
  match nbf with
  | some n => decide (n ≠ 0) && decide (n > now)
  | none => false

/-- Non-temporal part of `TokenVerifier.verify_token` (lines 253-292 of
the source): structural check, header and payload decoding, algorithm
extraction and pinning, key-id presence, signature verification, and
claims decoding, in source order.  Generic exceptions escaping a step
are wrapped as `Token verification failed: ...` by the final handler of
the source; their inner messages are abbreviated here. -/
def verifyCore (svc : VerificationService) (token : Token)
    (expected_algorithm : Option SignatureAlgorithm) : Except TokenErr TokenClaims :=
  match token with
  | [headerSeg, payloadSeg, signatureSeg] =>
    match headerSeg.decode with
    | none =>
      Except.error (TokenErr.verification "Token verification failed: header decode error")
    | some headerJson =>
      match payloadSeg.decode with
      | none =>
        Except.error (TokenErr.verification "Token verification failed: payload decode error")
      | some payloadJson =>
        match headerJson with
        | Json.obj headerDict =>
          match jsonLookup "alg" headerDict with
          | none =>
            Except.error (TokenErr.verification "Token verification failed: alg missing")
          | some algJson =>
            match parseAlgorithm algJson with
            | none =>
              Except.error (TokenErr.verification "Token verification failed: unknown algorithm")
            | some algorithm =>
              if ∃ ea, expected_algorithm = some ea ∧ algorithm ≠ ea then
                Except.error (TokenErr.verification "Algorithm mismatch")
              else
                match jsonLookup "kid" headerDict with
                | some kidJson =>
                  if jsonTruthy kidJson then
                    let result := svc headerSeg payloadSeg signatureSeg kidJson algorithm
                    if result.is_valid then
                      match payloadJson with
                      | Json.obj payloadDict =>
                        match TokenClaims.from_dict payloadDict with
                        | some claims => Except.ok claims
                        | none =>
                          Except.error (TokenErr.verification
                            "Token verification failed: claims decode error")
                      | _ =>
                        Except.error (TokenErr.verification
                          "Token verification failed: claims decode error")
                    else
                      Except.error (TokenErr.verification
                        ("Signature verification failed: " ++ result.error_message))
                  else
                    Except.error (TokenErr.verification "Missing key ID in header")
                | none =>
                  Except.error (TokenErr.verification "Missing key ID in header")
        | _ =>
          Except.error (TokenErr.verification "Token verification failed: alg missing")
  | _ => Except.error (TokenErr.verification "Invalid JWT format")

/-- Embedding of `TokenVerifier.verify_token`: the non-temporal pipeline
followed, when `validate_expiration` is set, by the expiration check
(`claims.exp < now` rejects as expired) and the not-yet-valid check.
The clock reading `now = int(datetime.now(timezone.utc).timestamp())` is
an explicit parameter. -/
def verify_token (svc : VerificationService) (token : Token)
    (expected_algorithm : Option SignatureAlgorithm) (validate_expiration : Bool)
    (now : Int) : Except TokenErr TokenClaims :=
  match verifyCore svc token expected_algorithm with
  | Except.error e => Except.error e
  | Except.ok claims =>
    if validate_expiration then
      if claims.exp < now then
        Except.error (TokenErr.expired ("Token expired at " ++ toString claims.exp))
      else if nbfRejects claims.nbf now then
        Except.error (TokenErr.verification "Token not yet valid")
      else
        Except.ok claims
    else
      Except.ok claims

/-- Embedding of `TokenVerifier.validate_spending_limit`: parse the
limit value as a decimal (a parse failure is an uncaught exception,
modelled as `none`), then require matching currency and
`requested_amount <= limit_value` under exact decimal comparison. -/
def validate_spending_limit (claims : TokenClaims) (requested_amount : Dec)
    (requested_currency : String) : Option Bool :=
  match Dec.parse claims.spending_limit.value with
  | none => none
  | some limit_value =>
    if requested_currency ≠ claims.spending_limit.currency then some false
    else some (Dec.ble requested_amount limit_value)

/-- Embedding of `TokenVerifier.validate_operation`. -/
def validate_operation (claims : TokenClaims) (operation : String) : Bool :=
  claims.allowed_operations.contains operation

/-- The per-token verification loop of `validate_delegation_chain`:
verify each token (default arguments: no pinned algorithm, expiration
validated); the first failure aborts with `none`, meaning the chain is
rejected. -/
def verifyAll (svc : VerificationService) (now : Int) : List Token →
    Option (List TokenClaims)
  | [] => some []
  | t :: ts =>
    match verify_token svc t none true now with
    | Except.ok claims => (verifyAll svc now ts).map (fun l => claims :: l)
    | Except.error _ => none

/-- The adjacent-pair checks of `validate_delegation_chain`, in source
order: link continuity first (a mismatch returns `False` before any
decimal is parsed), then the decimal limits (an unparseable limit value
is an uncaught exception, modelled as `none`), the currency equality,
and the operation-set inclusion. -/
def checkPair (parent child : TokenClaims) : Option Bool :=
  if child.iss ≠ parent.sub then some false
  else
    match Dec.parse child.spending_limit.value, Dec.parse parent.spending_limit.value with
    | some child_limit, some parent_limit =>
      if !(Dec.ble child_limit parent_limit) then some false
      else if child.spending_limit.currency ≠ parent.spending_limit.currency then some false
      else some (child.allowed_operations.all
        (fun op => parent.allowed_operations.contains op))
    | _, _ => none

/-- The pair loop `for i in range(len(claims_chain) - 1)`: each adjacent
pair in order, stopping at the first failing pair. -/
def checkPairs : List TokenClaims → Option Bool
  | [] => some true
  | [_] => some true
  | parent :: child :: rest =>
    match checkPair parent child with
    | none => none
    | some false => some false
    | some true => checkPairs (child :: rest)

/-- Embedding of `TokenVerifier.validate_delegation_chain`: reject the
empty sequence, verify every token, enforce the adjacent-pair rules,
then bound the chain length by the root token's `maxDelegationDepth`. -/
def validate_delegation_chain (svc : VerificationService) (now : Int)
    (tokens : List Token) : Option Bool :=
  if tokens.isEmpty then some false
  else
    match verifyAll svc now tokens with
    | none => some false
    | some claims_chain =>
      match checkPairs claims_chain with
      | none => none
      | some false => some false
      | some true =>
        match claims_chain.head? with
        | none => none
        | some root =>
          if (claims_chain.length : Int) > root.max_delegation_depth then some false
          else some true

/-- Embedding of `AuditManager.log_event`: build the entry and append it
to the log; the generated `entry_id` and the clock reading are explicit
parameters.  Returns the stored entry and the new log. -/
def log_event (logs : List AuditEntry) (event_type : String) (agent_id : String)
    (details : List (String × Json)) (entry_id : String) (now : Int) :
    AuditEntry × List AuditEntry :=
  let entry : AuditEntry :=
    { entry_id := entry_id, timestamp := now, event_type := event_type,
      agent_id := agent_id, details := details }
  (entry, logs ++ [entry])

/-- One `log_event` call's inputs, with the generated id and clock
reading made explicit. -/
structure LogInput where
  event_type : String
  agent_id : String
  details : List (String × Json)
  entry_id : String
  timestamp : Int

/-- The entry that `log_event` stores for a given input. -/
def entryOf (i : LogInput) : AuditEntry :=
  { entry_id := i.entry_id, timestamp := i.timestamp, event_type := i.event_type,
    agent_id := i.agent_id, details := i.details }

/-- A sequence of `log_event` calls, threading the log state. -/
def logMany (logs : List AuditEntry) (inputs : List LogInput) : List AuditEntry :=
  inputs.foldl
    (fun st i => (log_event st i.event_type i.agent_id i.details i.entry_id i.timestamp).2)
    logs

/-- Modelled from the spec: the `AuditBundle` model class lives in
`src/core/models.py`, which is not among the sources; its fields follow
the data model of the spec, and every field that
`AuditManager.generate_bundle` does not pass takes a default — in
particular an unsigned bundle carries the empty string as its
`signature`. -/
structure AuditBundle where
  bundle_id : String
  generated_by : String := ""
  generated_at : Int
  entries : List AuditEntry
  summary : List (String × Json) := []
  signature : String := ""
  signature_algorithm : String := ""
  signer_id : Option String := none

/-- Embedding of `AuditManager.generate_bundle`: snapshot the current
log into a bundle; only when both a signing capability and a truthy key
id are supplied is the signable subset `{bundle_id, generated_at,
entries, signer_id}` signed (with `ES256`) and the signature stored.  A
failure of the signing capability is an uncaught exception, surfaced as
`Except.error`; the generated `bundle_id` and the clock reading are
explicit parameters. -/
def generate_bundle (svc : Option SigningService) (logs : List AuditEntry)
    (agent_id : String) (key_id : Option String) (bundle_id : String) (now : Int) :
    Except String AuditBundle :=
  let logs_to_include := logs
  let bundle : AuditBundle :=
    { bundle_id := bundle_id, generated_at := now, entries := logs_to_include,
      signer_id := some agent_id }
  match svc, key_id with
  | some s, some k =>
    if k = "" then Except.ok bundle
    else
      match s (SignData.bundleContent bundle.bundle_id bundle.generated_at
          bundle.entries bundle.signer_id) k SignatureAlgorithm.ES256 with
      | Except.ok sig => Except.ok { bundle with signature := sig.signature }
      | Except.error e => Except.error e
  | _, _ => Except.ok bundle

/-- Decidable equality of verification outcomes, for evaluating the
embedding on concrete tokens. -/
instance : DecidableEq (Except TokenErr TokenClaims) := fun a b =>
  match a, b with
  | Except.ok x, Except.ok y => decidable_of_iff (x = y) (by simp)
  | Except.error x, Except.error y => decidable_of_iff (x = y) (by simp)
  | Except.ok _, Except.error _ => isFalse (by simp)
  | Except.error _, Except.ok _ => isFalse (by simp)

/-- The adjacent-pair attenuation contract of the chain validator: link
continuity, exact-decimal spending non-escalation, currency equality,
and operation-set inclusion. -/
def PairOK (parent child : TokenClaims) : Prop :=
  child.iss = parent.sub ∧
  (∃ dc dp, Dec.parse child.spending_limit.value = some dc ∧
            Dec.parse parent.spending_limit.value = some dp ∧
            dc.toRat ≤ dp.toRat) ∧
  child.spending_limit.currency = parent.spending_limit.currency ∧
  ∀ op ∈ child.allowed_operations, op ∈ parent.allowed_operations

/-- The transitive attenuation relation between an ancestor and a
descendant: exact-decimal spending bound and operation-set inclusion. -/
def AttenOK (ancestor descendant : TokenClaims) : Prop :=
  (∃ dd da, Dec.parse descendant.spending_limit.value = some dd ∧
            Dec.parse ancestor.spending_limit.value = some da ∧
            dd.toRat ≤ da.toRat) ∧
  ∀ op ∈ descendant.allowed_operations, op ∈ ancestor.allowed_operations

/-- A verification capability that accepts every signature. -/
def svcAll : VerificationService := fun _ _ _ _ _ => ⟨true, ""⟩

/-- A verification capability that rejects every signature. -/
def svcReject : VerificationService := fun _ _ _ _ _ => ⟨false, "rejected"⟩

/-- A signing capability that signs everything with the fixed signature
string `sig`. -/
def signOk : SigningService := fun _ k a => Except.ok ⟨"sig", a, k⟩

/-- Concrete claims builder for test chains (audience `any`, issued at
`0`, currency `USD`). -/
def mkClaims (iss sub value : String) (ops : List String) (depth exp : Int) :
    TokenClaims :=
  { iss := iss, sub := sub, aud := "any", exp := exp, iat := 0, jti := "t",
    spending_limit := ⟨value, "USD"⟩, allowed_operations := ops,
    max_delegation_depth := depth, budget_category := "b" }

/-- The wire token carrying the given claims under the fixture key. -/
def tokenOf (c : TokenClaims) : Token :=
  [Seg.jsonSeg (tokenHeader SignatureAlgorithm.ES256 "k1"),
   Seg.jsonSeg (Json.obj c.to_dict), Seg.rawSeg "sig"]

/-- Root of the concrete valid chain: `100.00 USD`, read and write,
depth `2`. -/
def rootC : TokenClaims := mkClaims "a0" "a1" "100.00" ["read", "write"] 2 2000

/-- Child of the concrete valid chain: attenuated to `50.00 USD` and
read-only, and declaring depth `1`, smaller than the chain length. -/
def childC : TokenClaims := mkClaims "a1" "a2" "50.00" ["read"] 1 2000

/-- Root declaring depth `1`, for the depth-rejection witness. -/
def rootD : TokenClaims := mkClaims "a0" "a1" "100.00" ["read"] 1 2000

/-- Child under `rootD` satisfying every pairwise rule. -/
def childD : TokenClaims := mkClaims "a1" "a2" "100.00" ["read"] 5 2000

/-- Claims expiring exactly at instant `1000`. -/
def expiryClaims : TokenClaims := mkClaims "a0" "a1" "100.00" ["read"] 2 1000

/-- A structurally well-formed token whose payload segment does not
decode. -/
def garbledTok : Token :=
  [Seg.jsonSeg (tokenHeader SignatureAlgorithm.ES256 "k1"),
   Seg.rawSeg "garbled", Seg.rawSeg "sig"]

/-- A child violating link continuity under `rootC` (issuer differs from
the root's subject). -/
def badChild : TokenClaims := mkClaims "zz" "a2" "50.00" ["read"] 1 2000

/-- A first concrete log-event input. -/
def logInputA : LogInput := ⟨"charge", "agent1", [], "aud1", 1⟩

/-- A second concrete log-event input. -/
def logInputB : LogInput := ⟨"refund", "agent1", [], "aud2", 2⟩

/-- Exact decimal comparison agrees with the comparison of the exact
rational values. -/
theorem Dec.ble_iff (a b : Dec) : Dec.ble a b = true ↔ a.toRat ≤ b.toRat := by
  unfold Dec.ble Dec.toRat
  rw [decide_eq_true_eq, div_le_div_iff₀ (by positivity) (by positivity)]
  constructor <;> intro h <;> exact_mod_cast h

/-- Decoding inverts the encoding of an operation-name list. -/
theorem decodeStrList_map (l : List String) :
    decodeStrList (l.map Json.str) = some l := by
  induction l with
  | nil => rfl
  | cons a t ih => simp [decodeStrList, ih]

/-- Decoding the encoded payload dictionary restores the claims. -/
theorem from_dict_to_dict (c : TokenClaims) :
    TokenClaims.from_dict c.to_dict = some c := by
  obtain ⟨iss, sub, aud, exp, iat, jti, sl, ops, dep, bc, nbf, ptid⟩ := c
  obtain ⟨v, cur⟩ := sl
  cases nbf <;> cases ptid <;>
    simp [TokenClaims.from_dict, TokenClaims.to_dict, getStr, getInt, getIntOpt,
      getStrOpt, getLimit, getOps, jsonLookup, decodeStrList_map]

/-- An absent `nbf` leaves no `nbf` key in the payload dictionary. -/
theorem to_dict_nbf_absent (c : TokenClaims) (h : c.nbf = none) :
    jsonLookup "nbf" c.to_dict = none := by
  cases hp : c.parent_token_id <;> simp [TokenClaims.to_dict, jsonLookup, h, hp]

/-- An absent `parent_token_id` leaves no `parentTokenId` key in the
payload dictionary. -/
theorem to_dict_parent_absent (c : TokenClaims) (h : c.parent_token_id = none) :
    jsonLookup "parentTokenId" c.to_dict = none := by
  cases hn : c.nbf <;> simp [TokenClaims.to_dict, jsonLookup, h, hn]

/-- A pair passing `checkPair` satisfies every adjacent-pair rule. -/
theorem checkPair_sound {p c : TokenClaims} (h : checkPair p c = some true) :
    PairOK p c := by
  unfold checkPair at h
  split at h
  · exact absurd h (by simp)
  · rename_i h1
    push_neg at h1
    split at h
    · rename_i dc dp hc hp
      split at h
      · exact absurd h (by simp)
      · rename_i h2
        split at h
        · exact absurd h (by simp)
        · rename_i h3
          push_neg at h3
          simp only [Option.some.injEq] at h
          refine ⟨h1, ⟨dc, dp, hc, hp, (Dec.ble_iff dc dp).mp (by simpa using h2)⟩,
            h3, ?_⟩
          intro op hop
          have h4 := (List.all_eq_true.mp h) op hop
          simpa using h4
    · exact absurd h (by simp)

/-- A chain passing the pair loop satisfies the rules along every
adjacent pair. -/
theorem checkPairs_chain : ∀ {l : List TokenClaims},
    checkPairs l = some true → List.Chain' PairOK l
  | [] => fun _ => List.chain'_nil
  | [_] => fun _ => List.chain'_singleton _
  | p :: c :: rest => by
    intro h
    unfold checkPairs at h
    cases hcp : checkPair p c with
    | none => rw [hcp] at h; simp at h
    | some v =>
      cases v with
      | false => rw [hcp] at h; simp at h
      | true =>
        rw [hcp] at h
        exact List.chain'_cons.mpr ⟨checkPair_sound hcp, checkPairs_chain h⟩

/-- Per-token verification preserves the number of tokens. -/
theorem verifyAll_length {svc : VerificationService} {now : Int} :
    ∀ {ts : List Token} {l : List TokenClaims},
      verifyAll svc now ts = some l → l.length = ts.length
  | [], l => by
    intro h
    unfold verifyAll at h
    simp only [Option.some.injEq] at h
    simp [← h]
  | t :: ts, l => by
    intro h
    unfold verifyAll at h
    cases hv : verify_token svc t none true now with
    | error e => rw [hv] at h; simp at h
    | ok claims =>
      rw [hv] at h
      cases hrest : verifyAll svc now ts with
      | none => rw [hrest] at h; simp at h
      | some l2 =>
        rw [hrest] at h
        simp at h
        subst h
        simp [verifyAll_length hrest]

/-- An accepted chain passed the pair loop and respects the root depth
bound. -/
theorem validate_pieces {svc : VerificationService} {now : Int} {tokens : List Token}
    {chain : List TokenClaims}
    (hv : verifyAll svc now tokens = some chain)
    (h : validate_delegation_chain svc now tokens = some true) :
    checkPairs chain = some true ∧
    ∀ root, chain.head? = some root →
      (chain.length : Int) ≤ root.max_delegation_depth := by
  unfold validate_delegation_chain at h
  split at h
  · exact absurd h (by simp)
  · split at h
    · exact absurd h (by simp)
    · rename_i claims_chain heq
      rw [hv] at heq
      injection heq with heq
      subst heq
      split at h
      · exact absurd h (by simp)
      · exact absurd h (by simp)
      · rename_i hcp
        refine ⟨hcp, ?_⟩
        intro root hroot
        split at h
        · exact absurd h (by simp)
        · rename_i root2 hhead
          rw [hroot] at hhead
          injection hhead with hh
          subst hh
          split at h
          · exact absurd h (by simp)
          · rename_i hd
            omega

/-- The adjacent-pair rules imply the attenuation relation. -/
theorem pairOK_atten {p c : TokenClaims} (h : PairOK p c) : AttenOK p c :=
  ⟨h.2.1, h.2.2.2⟩

/-- The attenuation relation is transitive. -/
theorem attenOK_trans {a b c : TokenClaims}
    (hab : AttenOK a b) (hbc : AttenOK b c) : AttenOK a c := by
  obtain ⟨⟨db, da, hb, ha, hba⟩, hops1⟩ := hab
  obtain ⟨⟨dc, db2, hc, hb2, hcb⟩, hops2⟩ := hbc
  rw [hb] at hb2
  injection hb2 with hb2
  subst hb2
  exact ⟨⟨dc, da, hc, ha, le_trans hcb hba⟩, fun op hop => hops1 op (hops2 op hop)⟩

/-- Transitivity of the attenuation relation, packaged for the chain
lemmas. -/
theorem attenOK_isTrans : IsTrans TokenClaims AttenOK :=
  ⟨fun _ _ _ hab hbc => attenOK_trans hab hbc⟩

/-- With both spending limits parseable, a pair check never raises. -/
theorem checkPair_isSome {p c : TokenClaims}
    (hc : (Dec.parse c.spending_limit.value).isSome)
    (hp : (Dec.parse p.spending_limit.value).isSome) :
    checkPair p c ≠ none := by
  unfold checkPair
  obtain ⟨dc, hdc⟩ := Option.isSome_iff_exists.mp hc
  obtain ⟨dp, hdp⟩ := Option.isSome_iff_exists.mp hp
  split
  · simp
  · rw [hdc, hdp]
    split <;> split_ifs <;> simp

/-- With every spending limit parseable, the pair loop never raises. -/
theorem checkPairs_isSome : ∀ {l : List TokenClaims},
    (∀ c ∈ l, (Dec.parse c.spending_limit.value).isSome) →
    checkPairs l ≠ none
  | [] => by intro _; unfold checkPairs; simp
  | [_] => by intro _; unfold checkPairs; simp
  | p :: c :: rest => by
    intro hall
    unfold checkPairs
    cases hcp : checkPair p c with
    | none =>
      exact absurd hcp (checkPair_isSome (hall c (by simp)) (hall p (by simp)))
    | some v =>
      cases v with
      | false => simp
      | true =>
        exact checkPairs_isSome (fun x hx => hall x (List.mem_cons_of_mem _ hx))

/-- With every spending limit parseable, chain validation returns a
boolean rather than raising. -/
theorem validate_ne_none {svc : VerificationService} {now : Int} {tokens : List Token}
    {chain : List TokenClaims}
    (hv : verifyAll svc now tokens = some chain)
    (hparse : ∀ c ∈ chain, (Dec.parse c.spending_limit.value).isSome) :
    validate_delegation_chain svc now tokens ≠ none := by
  unfold validate_delegation_chain
  split
  · simp
  · rename_i he
    rw [hv]
    cases hcp : checkPairs chain with
    | none => exact absurd hcp (checkPairs_isSome hparse)
    | some v =>
      cases v with
      | false => simp [hcp]
      | true =>
        have hne : chain ≠ [] := by
          intro hc
          subst hc
          have := verifyAll_length hv
          cases tokens with
          | nil => simp at he
          | cons a t => simp at this
        cases hh : chain.head? with
        | none => exact absurd (List.head?_eq_none_iff.mp hh) hne
        | some root => simp [hcp, hh]; split <;> simp

/-- Every adjacent pair of an accepted chain satisfies the pair rules. -/
theorem chain_pair_rules_aux {svc : VerificationService} {now : Int}
    {tokens : List Token} {chain : List TokenClaims}
    (hacc : validate_delegation_chain svc now tokens = some true)
    (hverify : verifyAll svc now tokens = some chain) :
    ∀ i (h : i + 1 < chain.length),
      PairOK (chain.get ⟨i, Nat.lt_of_succ_lt h⟩) (chain.get ⟨i + 1, h⟩) := by
  have hchain := checkPairs_chain (validate_pieces hverify hacc).1
  intro i h
  exact List.chain'_iff_get.mp hchain i (by omega)

/-- C1: for every token chain accepted by `validate_delegation_chain`
and every adjacent pair (parent at position `i`, child at position
`i + 1`) of its verified claims, link continuity (`child.iss =
parent.sub`), exact-decimal spending non-escalation, currency equality,
and operation-set inclusion all hold; and, conversely, when every limit
parses, a violation of any one rule on any pair makes the validator
return `False` for the whole chain. -/
theorem chain_adjacent_attenuation_rules :
    (∀ (svc : VerificationService) (now : Int) (tokens : List Token)
       (chain : List TokenClaims),
       validate_delegation_chain svc now tokens = some true →
       verifyAll svc now tokens = some chain →
       ∀ i (h : i + 1 < chain.length),
         PairOK (chain.get ⟨i, Nat.lt_of_succ_lt h⟩) (chain.get ⟨i + 1, h⟩)) ∧
    (∀ (svc : VerificationService) (now : Int) (tokens : List Token)
       (chain : List TokenClaims) (i : Nat) (h : i + 1 < chain.length),
       verifyAll svc now tokens = some chain →
       (∀ c ∈ chain, (Dec.parse c.spending_limit.value).isSome) →
       ¬ PairOK (chain.get ⟨i, Nat.lt_of_succ_lt h⟩) (chain.get ⟨i + 1, h⟩) →
       validate_delegation_chain svc now tokens = some false) := by
  constructor
  · intro svc now tokens chain hacc hverify
    exact chain_pair_rules_aux hacc hverify
  · intro svc now tokens chain i h hverify hparse hnot
    cases hres : validate_delegation_chain svc now tokens with
    | none => exact absurd hres (validate_ne_none hverify hparse)
    | some v =>
      cases v with
      | false => rfl
      | true => exact absurd (chain_pair_rules_aux hres hverify i h) hnot

/-- Witness for C1: the concrete two-token chain `rootC → childC` is
accepted and its only adjacent pair satisfies all rules, while the
chain with the link-continuity-violating `badChild` is rejected. -/
theorem chain_adjacent_attenuation_rules_witness :
    PairOK rootC childC ∧
    validate_delegation_chain svcAll 0 [tokenOf rootC, tokenOf badChild] = some false :=
  ⟨chain_adjacent_attenuation_rules.1 svcAll 0 [tokenOf rootC, tokenOf childC]
     [rootC, childC] (by decide) (by decide) 0 (by decide),
   chain_adjacent_attenuation_rules.2 svcAll 0 [tokenOf rootC, tokenOf badChild]
     [rootC, badChild] 0 (by decide) (by decide) (by decide)
     (fun hP => absurd hP.1 (by decide))⟩

/-- C2: `validate_delegation_chain` rejects the empty sequence; a chain
whose token count exceeds the root's `maxDelegationDepth` is rejected
whenever every other rule passes; and only the root's declared depth
governs the bound, as the accepted chain `rootC → childC` shows — its
child declares depth `1`, smaller than the chain length `2`. -/
theorem chain_depth_and_empty_rules :
    (∀ (svc : VerificationService) (now : Int),
       validate_delegation_chain svc now [] = some false) ∧
    (∀ (svc : VerificationService) (now : Int) (tokens : List Token)
       (chain : List TokenClaims) (root : TokenClaims),
       verifyAll svc now tokens = some chain →
       chain.head? = some root →
       checkPairs chain = some true →
       (tokens.length : Int) > root.max_delegation_depth →
       validate_delegation_chain svc now tokens = some false) ∧
    (validate_delegation_chain svcAll 0 [tokenOf rootC, tokenOf childC] = some true ∧
     childC.max_delegation_depth = 1 ∧
     (([tokenOf rootC, tokenOf childC] : List Token).length : Int) >
       childC.max_delegation_depth) := by
  refine ⟨fun svc now => rfl, ?_, by decide⟩
  intro svc now tokens chain root hv hroot hcp hd
  have hlen := verifyAll_length hv
  have hne : tokens ≠ [] := by
    intro he
    subst he
    unfold verifyAll at hv
    simp only [Option.some.injEq] at hv
    subst hv
    simp at hroot
  unfold validate_delegation_chain
  rw [if_neg (by simp [hne]), hv]
  simp only [hcp, hroot]
  rw [if_pos (by rw [hlen]; exact hd)]

/-- Witness for C2: the chain of two tokens rooted at `rootD`, which
declares depth `1`, passes every pairwise rule yet is rejected. -/
theorem chain_depth_and_empty_rules_witness :
    validate_delegation_chain svcAll 0 [tokenOf rootD, tokenOf childD] = some false :=
  chain_depth_and_empty_rules.2.1 svcAll 0 [tokenOf rootD, tokenOf childD]
    [rootD, childD] rootD (by decide) (by decide) (by decide) (by decide)

/-- C3: in every accepted chain, attenuation holds transitively: for any
positions `i < j`, token `j`'s spending limit is at most token `i`'s
under exact decimal comparison, and token `j`'s operation set is
included in token `i`'s. -/
theorem chain_transitive_attenuation (svc : VerificationService) (now : Int)
    (tokens : List Token) (chain : List TokenClaims)
    (hacc : validate_delegation_chain svc now tokens = some true)
    (hverify : verifyAll svc now tokens = some chain) :
    ∀ i j (hij : i < j) (hj : j < chain.length),
      AttenOK (chain.get ⟨i, lt_trans hij hj⟩) (chain.get ⟨j, hj⟩) := by
  have hchain := checkPairs_chain (validate_pieces hverify hacc).1
  have h2 : List.Chain' AttenOK chain :=
    List.Chain'.imp (fun _ _ hab => pairOK_atten hab) hchain
  have hp : List.Pairwise AttenOK chain :=
    (@List.chain'_iff_pairwise TokenClaims AttenOK attenOK_isTrans chain).mp h2
  intro i j hij hj
  exact List.pairwise_iff_get.mp hp ⟨i, lt_trans hij hj⟩ ⟨j, hj⟩ hij

/-- Witness for C3: in the accepted concrete chain, the leaf is
attenuated with respect to the root. -/
theorem chain_transitive_attenuation_witness : AttenOK rootC childC :=
  chain_transitive_attenuation svcAll 0 [tokenOf rootC, tokenOf childC]
    [rootC, childC] (by decide) (by decide) 0 1 (by decide) (by decide)

/-- Counterexample to C4: a token whose `exp` equals the current time is
accepted by `verify_token` with expiration validation enabled, not
rejected as expired — the source's check `claims.exp < now` is strict in
the other direction. -/
theorem verify_token_at_exp_equals_now_accepted :
    verify_token svcAll (tokenOf expiryClaims) none true 1000 =
      Except.ok expiryClaims ∧ expiryClaims.exp = 1000 := by decide

/-- C4 (amended): with expiration validation enabled, a token passing
all non-temporal checks is accepted whenever `now ≤ exp` — in particular
at `exp == now` and `exp == now + 1` — and is rejected as expired
exactly when `now > exp`, all else equal. -/
theorem verify_token_expiration_boundary (svc : VerificationService) (token : Token)
    (ealg : Option SignatureAlgorithm) (now : Int) (c : TokenClaims)
    (hok : verify_token svc token ealg false now = Except.ok c)
    (hnbf : c.nbf = none) :
    (now ≤ c.exp → verify_token svc token ealg true now = Except.ok c) ∧
    (now > c.exp → verify_token svc token ealg true now =
       Except.error (TokenErr.expired ("Token expired at " ++ toString c.exp))) := by
  unfold verify_token at hok ⊢
  cases hcore : verifyCore svc token ealg with
  | error e => rw [hcore] at hok; exact absurd hok (by simp)
  | ok claims =>
    rw [hcore] at hok
    simp only [Bool.false_eq_true, if_false, Except.ok.injEq] at hok
    subst hok
    constructor
    · intro hle
      simp [not_lt.mpr hle, hnbf, nbfRejects]
    · intro hgt
      simp [hgt]

/-- Witness for C4 (amended): the token expiring at `1000` is accepted
at `now = 999` and rejected as expired at `now = 1001`. -/
theorem verify_token_expiration_boundary_witness :
    verify_token svcAll (tokenOf expiryClaims) none true 999 =
      Except.ok expiryClaims ∧
    verify_token svcAll (tokenOf expiryClaims) none true 1001 =
      Except.error (TokenErr.expired
        ("Token expired at " ++ toString expiryClaims.exp)) :=
  ⟨(verify_token_expiration_boundary svcAll (tokenOf expiryClaims) none 999
      expiryClaims (by decide) rfl).1 (by decide),
   (verify_token_expiration_boundary svcAll (tokenOf expiryClaims) none 1001
      expiryClaims (by decide) rfl).2 (by decide)⟩

/-- Counterexample to C5: a structurally well-formed token with an
undecodable payload and a token failing signature verification are both
rejected through the same exception class (`TokenVerificationError`);
the two rejection kinds are equal, not distinct. -/
theorem malformed_payload_same_kind_as_signature_failure :
    verify_token svcAll garbledTok none true 0 =
      Except.error (TokenErr.verification
        "Token verification failed: payload decode error") ∧
    verify_token svcReject (tokenOf rootC) none true 0 =
      Except.error (TokenErr.verification "Signature verification failed: rejected") ∧
    TokenErr.kind
        (TokenErr.verification "Token verification failed: payload decode error") =
      TokenErr.kind
        (TokenErr.verification "Signature verification failed: rejected") := by decide

/-- C5 (amended): a well-formed token whose payload segment does not
decode is rejected with a `TokenVerificationError` wrapped as a generic
verification failure, and a signature failure is rejected with a
`TokenVerificationError` carrying the `Signature verification failed:`
message — the same exception kind in both cases, distinguishable only by
message text. -/
theorem verify_token_rejection_kinds :
    (∀ (svc : VerificationService) (hj : Json) (s : String) (sig : Seg)
       (ealg : Option SignatureAlgorithm) (vexp : Bool) (now : Int),
       verify_token svc [Seg.jsonSeg hj, Seg.rawSeg s, sig] ealg vexp now =
         Except.error (TokenErr.verification
           "Token verification failed: payload decode error")) ∧
    (∀ (svc : VerificationService) (hd : List (String × Json)) (pj : Json) (sig : Seg)
       (aj : Json) (alg : SignatureAlgorithm) (kidj : Json)
       (ealg : Option SignatureAlgorithm) (vexp : Bool) (now : Int),
       jsonLookup "alg" hd = some aj →
       parseAlgorithm aj = some alg →
       (¬ ∃ ea, ealg = some ea ∧ alg ≠ ea) →
       jsonLookup "kid" hd = some kidj →
       jsonTruthy kidj = true →
       (svc (Seg.jsonSeg (Json.obj hd)) (Seg.jsonSeg pj) sig kidj alg).is_valid = false →
       verify_token svc [Seg.jsonSeg (Json.obj hd), Seg.jsonSeg pj, sig] ealg vexp now =
         Except.error (TokenErr.verification ("Signature verification failed: " ++
           (svc (Seg.jsonSeg (Json.obj hd)) (Seg.jsonSeg pj) sig kidj
             alg).error_message))) := by
  constructor
  · intro svc hj s sig ealg vexp now
    rfl
  · intro svc hd pj sig aj alg kidj ealg vexp now h1 h2 h3 h4 h5 h6
    simp [verify_token, verifyCore, Seg.decode, h1, h2, h3, h4, h5, h6]

/-- Witness for C5 (amended): concrete garbled-payload and
rejected-signature tokens produce the two message shapes. -/
theorem verify_token_rejection_kinds_witness :
    verify_token svcAll [Seg.jsonSeg (tokenHeader SignatureAlgorithm.ES256 "k1"),
        Seg.rawSeg "garbled", Seg.rawSeg "sig"] none true 0 =
      Except.error (TokenErr.verification
        "Token verification failed: payload decode error") ∧
    verify_token svcReject [Seg.jsonSeg (tokenHeader SignatureAlgorithm.ES256 "k1"),
        Seg.jsonSeg (Json.obj rootC.to_dict), Seg.rawSeg "sig"] none true 0 =
      Except.error (TokenErr.verification ("Signature verification failed: " ++
        (svcReject (Seg.jsonSeg (tokenHeader SignatureAlgorithm.ES256 "k1"))
          (Seg.jsonSeg (Json.obj rootC.to_dict)) (Seg.rawSeg "sig") (Json.str "k1")
          SignatureAlgorithm.ES256).error_message)) :=
  ⟨verify_token_rejection_kinds.1 svcAll (tokenHeader SignatureAlgorithm.ES256 "k1")
     "garbled" (Seg.rawSeg "sig") none true 0,
   verify_token_rejection_kinds.2 svcReject
     [("alg", Json.str "ES256"), ("typ", Json.str "JWT"), ("kid", Json.str "k1")]
     (Json.obj rootC.to_dict) (Seg.rawSeg "sig") (Json.str "ES256")
     SignatureAlgorithm.ES256 (Json.str "k1") none true 0
     rfl rfl (by simp) rfl (by decide) rfl⟩

/-- C6: decoding the encoded dictionary of any claims value restores the
claims, and the optional `nbf` and `parentTokenId` keys are entirely
absent from the encoding when the fields are absent. -/
theorem token_claims_roundtrip (c : TokenClaims) :
    TokenClaims.from_dict c.to_dict = some c ∧
    (c.nbf = none → jsonLookup "nbf" c.to_dict = none) ∧
    (c.parent_token_id = none → jsonLookup "parentTokenId" c.to_dict = none) :=
  ⟨from_dict_to_dict c, to_dict_nbf_absent c, to_dict_parent_absent c⟩

/-- Witness for C6: the concrete claims `rootC`, which carry neither
optional field, round-trip and encode without the optional keys. -/
theorem token_claims_roundtrip_witness :
    TokenClaims.from_dict rootC.to_dict = some rootC ∧
    jsonLookup "nbf" rootC.to_dict = none ∧
    jsonLookup "parentTokenId" rootC.to_dict = none :=
  ⟨(token_claims_roundtrip rootC).1, (token_claims_roundtrip rootC).2.1 rfl,
   (token_claims_roundtrip rootC).2.2 rfl⟩

/-- Counterexample to C7: the header built by `create_token` carries
`typ = "JWT"`, which differs from the string `"token"` that the claim
requires. -/
theorem create_token_typ_is_jwt_not_token :
    create_token signOk rootC "k1" SignatureAlgorithm.ES256 =
      Except.ok [Seg.jsonSeg (tokenHeader SignatureAlgorithm.ES256 "k1"),
                 Seg.jsonSeg (Json.obj rootC.to_dict), Seg.rawSeg "sig"] ∧
    tokenHeader SignatureAlgorithm.ES256 "k1" =
      Json.obj [("alg", Json.str "ES256"), ("typ", Json.str "JWT"),
                ("kid", Json.str "k1")] ∧
    jsonLookup "typ" [("alg", Json.str "ES256"), ("typ", Json.str "JWT"),
      ("kid", Json.str "k1")] = some (Json.str "JWT") ∧
    Json.str "JWT" ≠ Json.str "token" := by
  refine ⟨rfl, rfl, rfl, ?_⟩
  intro h
  injection h with h2
  exact absurd h2 (by decide)

/-- C7 (amended): for every claims value, key id and algorithm,
`create_token` builds the token whose header is exactly
`{alg: <algorithm>, typ: "JWT", kid: <keyId>}`, followed by the encoded
claims payload and the capability's signature. -/
theorem create_token_header_shape (svc : SigningService) (claims : TokenClaims)
    (key_id : String) (alg : SignatureAlgorithm) (r : SignerResult)
    (hs : svc (SignData.tokenInput (Seg.jsonSeg (tokenHeader alg key_id))
            (Seg.jsonSeg (Json.obj claims.to_dict))) key_id alg = Except.ok r) :
    create_token svc claims key_id alg =
      Except.ok [Seg.jsonSeg (Json.obj [("alg", Json.str alg.value),
                   ("typ", Json.str "JWT"), ("kid", Json.str key_id)]),
                 Seg.jsonSeg (Json.obj claims.to_dict), Seg.rawSeg r.signature] := by
  unfold create_token
  rw [show (tokenHeader alg key_id) =
    Json.obj [("alg", Json.str alg.value), ("typ", Json.str "JWT"),
              ("kid", Json.str key_id)] from rfl] at hs ⊢
  dsimp only
  rw [hs]

/-- Witness for C7 (amended): issuing a token for concrete claims under
key `k2` yields the `typ = "JWT"` header. -/
theorem create_token_header_shape_witness :
    create_token signOk childC "k2" SignatureAlgorithm.ES256 =
      Except.ok [Seg.jsonSeg (Json.obj [("alg", Json.str "ES256"),
                   ("typ", Json.str "JWT"), ("kid", Json.str "k2")]),
                 Seg.jsonSeg (Json.obj childC.to_dict), Seg.rawSeg "sig"] :=
  create_token_header_shape signOk childC "k2" SignatureAlgorithm.ES256
    ⟨"sig", SignatureAlgorithm.ES256, "k2"⟩ rfl

/-- C8: without a signing capability or without a key id,
`generate_bundle` still returns a bundle, and that bundle's signature
field is the empty string. -/
theorem generate_bundle_unsigned_empty_signature (svc : Option SigningService)
    (logs : List AuditEntry) (agent_id : String) (key_id : Option String)
    (bundle_id : String) (now : Int)
    (h : svc = none ∨ key_id = none) :
    generate_bundle svc logs agent_id key_id bundle_id now =
      Except.ok { bundle_id := bundle_id, generated_at := now, entries := logs,
                  signer_id := some agent_id } ∧
    ({ bundle_id := bundle_id, generated_at := now, entries := logs,
       signer_id := some agent_id } : AuditBundle).signature = "" := by
  constructor
  · cases h with
    | inl h => subst h; rfl
    | inr h => subst h; cases svc <;> rfl
  · rfl

/-- Witness for C8: generating a bundle with no signing capability
returns the bundle with an empty signature. -/
theorem generate_bundle_unsigned_empty_signature_witness :
    generate_bundle none [] "agent1" (some "k1") "b1" 5 =
      Except.ok { bundle_id := "b1", generated_at := 5, entries := [],
                  signer_id := some "agent1" } ∧
    ({ bundle_id := "b1", generated_at := 5, entries := [],
       signer_id := some "agent1" } : AuditBundle).signature = "" :=
  generate_bundle_unsigned_empty_signature none [] "agent1" (some "k1") "b1" 5
    (Or.inl rfl)

/-- A returned bundle's entries are exactly the snapshotted log. -/
theorem generate_bundle_entries {svc : Option SigningService} {logs : List AuditEntry}
    {agent_id : String} {key_id : Option String} {bundle_id : String} {now : Int}
    {b : AuditBundle}
    (h : generate_bundle svc logs agent_id key_id bundle_id now = Except.ok b) :
    b.entries = logs := by
  unfold generate_bundle at h
  dsimp only at h
  split at h
  · split at h
    · injection h with h2
      rw [← h2]
    · split at h
      · injection h with h2
        rw [← h2]
      · exact absurd h (by simp)
  · injection h with h2
    rw [← h2]

/-- Folding `log_event` appends exactly the entries of the inputs, in
order. -/
theorem logMany_eq : ∀ (inputs : List LogInput) (st : List AuditEntry),
    logMany st inputs = st ++ inputs.map entryOf
  | [], st => by simp [logMany]
  | i :: t, st => by
    have h1 : logMany st (i :: t) = logMany (st ++ [entryOf i]) t := rfl
    rw [h1, logMany_eq t (st ++ [entryOf i])]
    simp

/-- C9: after logging the given events into an empty log, a bundle
returned by `generate_bundle` contains exactly those entries, in log
order, with no filtering. -/
theorem generate_bundle_entries_in_log_order (inputs : List LogInput)
    (svc : Option SigningService) (agent_id : String) (key_id : Option String)
    (bundle_id : String) (now : Int) (b : AuditBundle)
    (h : generate_bundle svc (logMany [] inputs) agent_id key_id bundle_id now =
           Except.ok b) :
    b.entries = inputs.map entryOf ∧ b.entries.length = inputs.length := by
  have he := generate_bundle_entries h
  have hl : logMany [] inputs = inputs.map entryOf := by simpa using logMany_eq inputs []
  rw [he, hl]
  simp

/-- Witness for C9: logging two concrete events and bundling yields
exactly those two entries in order. -/
theorem generate_bundle_entries_in_log_order_witness :
    ({ bundle_id := "b1", generated_at := 5,
       entries := logMany [] [logInputA, logInputB],
       signer_id := some "agent1" } : AuditBundle).entries =
      [logInputA, logInputB].map entryOf ∧
    ({ bundle_id := "b1", generated_at := 5,
       entries := logMany [] [logInputA, logInputB],
       signer_id := some "agent1" } : AuditBundle).entries.length =
      [logInputA, logInputB].length :=
  generate_bundle_entries_in_log_order [logInputA, logInputB] none "agent1" none
    "b1" 5 _ rfl

/-- C10: with a parseable limit, `validate_spending_limit` returns
`True` exactly when the requested currency matches and the requested
amount is at most the limit under exact decimal comparison, and any
currency mismatch returns `False` regardless of the amount. -/
theorem validate_spending_limit_iff (claims : TokenClaims) (requested_amount : Dec)
    (requested_currency : String) (limit : Dec)
    (hparse : Dec.parse claims.spending_limit.value = some limit) :
    (validate_spending_limit claims requested_amount requested_currency = some true ↔
       requested_currency = claims.spending_limit.currency ∧
       requested_amount.toRat ≤ limit.toRat) ∧
    (requested_currency ≠ claims.spending_limit.currency →
       validate_spending_limit claims requested_amount requested_currency =
         some false) := by
  unfold validate_spending_limit
  rw [hparse]
  dsimp only
  constructor
  · by_cases hc : requested_currency = claims.spending_limit.currency
    · rw [if_neg (by simp [hc])]
      simp [hc, Dec.ble_iff]
    · rw [if_pos hc]
      simp [hc]
  · intro hc
    rw [if_pos hc]

/-- Witness for C10: requesting `50.00 USD` against the `100.00 USD`
limit of `rootC`. -/
theorem validate_spending_limit_iff_witness :
    (validate_spending_limit rootC ⟨5000, 2⟩ "USD" = some true ↔
       "USD" = rootC.spending_limit.currency ∧
       Dec.toRat ⟨5000, 2⟩ ≤ Dec.toRat ⟨10000, 2⟩) ∧
    ("USD" ≠ rootC.spending_limit.currency →
       validate_spending_limit rootC ⟨5000, 2⟩ "USD" = some false) :=
  validate_spending_limit_iff rootC ⟨5000, 2⟩ "USD" ⟨10000, 2⟩ (by decide)
